import Mathlib

/-!
Shallow embedding of the Elsys uplink decoder (`src/uplink.rs`) together with
theorems checking the natural-language specification against it.

Modelling conventions:
* Bytes are `Nat` (Rust `u8` guarantees values below 256; theorems add the
  bound explicitly where it matters).
* The Rust `f32` temperature (`temperature_x10 as f32 * 0.1`) is modelled
  exactly over `ℚ`, the standard idealisation of the float arithmetic; the
  fixed-point integer part (`bin16_to_dec`) is modelled bit-faithfully over
  `Int`, with the `as i16` truncating casts rendered as `Int.bmod · 65536`.
* The `std::io::Error` values are modelled by `DecodeError`, one constructor
  per error construction site, carrying the data the Rust messages format.
* The `while` loop of `deserialize` becomes `deserializeLoop`, total by
  well-founded recursion on `input.length - i`; `deserializeFuel` is a
  step-indexed variant used to state termination and evaluate concrete
  inputs, and `deserializeLoopChecked` is a variant in which every slice
  index is bounds-checked (`none` marks an out-of-bounds access, i.e. a Rust
  panic), used for the memory-safety claim.
-/

namespace Elsys

inductive Occupancy where
  | noBody
  | pendingOrPir
  | occupiedOrHeat
deriving DecidableEq, Repr

structure Uplink where
  temperature : Option ℚ
  co2 : Option Nat
  battery_mv : Option Nat
  occupancy : Option Occupancy
  external_digital : Option Bool
deriving DecidableEq, Repr

/-- The all-absent record produced by the Rust `Uplink::default()`. -/
def Uplink.default : Uplink := ⟨none, none, none, none, none⟩

inductive DecodeError where
  /-- Error built in verify_pattern_matches: index i has value b,
  which is not an identifier. -/
  | unrecognizedTag (input : List Nat) (i : Nat) (b : Nat)
  /-- Error built in verify_array_length: index i has value b,
  which is length size. -/
  | truncated (input : List Nat) (i : Nat) (b : Nat) (size : Nat)
  /-- Error built in the external_digital decoder: index i has value b,
  which is not a window contact value. -/
  | notWindowContact (input : List Nat) (i : Nat) (b : Nat)
  /-- Error built in the occupancy decoder: index i has value b,
  which is not an occupancy value. -/
  | notOccupancy (input : List Nat) (i : Nat) (b : Nat)
deriving DecidableEq, Repr

/-- Rust fn bin16_to_dec(bin: u16) -> i16. The two as i16 casts are the
truncating reinterpretation into the signed 16-bit range, i.e.
Int.bmod · 65536. -/
def bin16_to_dec (bin : Nat) : Int :=
  if 0x8000 &&& bin == 0 then
    Int.bmod (bin : Int) 65536
  else
    Int.bmod (-(0x10000 - (bin : Int))) 65536

/-- The decoder function stored in a Layout entry (Rust: a fn pointer). -/
inductive Decoder where
  | temperature
  | co2
  | battery
  | external_digital
  | occupancy
  | no_decode
deriving DecidableEq, Repr

/-- Interpretation of each decoder fn, mirroring the Rust bodies.
Rust indexes panic out of bounds; here `List.getD _ 0` stands for the
access, and `runDecoderChecked` below tracks bounds explicitly. -/
def runDecoder : Decoder → List Nat → Nat → Uplink → Except DecodeError Uplink
  | .temperature, input, i, output =>
      let temperature_x10_pos := (input.getD i 0 <<< 8) ||| input.getD (i + 1) 0
      let temperature_x10 := bin16_to_dec temperature_x10_pos
      .ok { output with temperature := some ((temperature_x10 : ℚ) * 0.1) }
  | .co2, input, i, output =>
      .ok { output with co2 := some ((input.getD i 0 <<< 8) ||| input.getD (i + 1) 0) }
  | .battery, input, i, output =>
      .ok { output with battery_mv := some ((input.getD i 0 <<< 8) ||| input.getD (i + 1) 0) }
  | .external_digital, input, i, output =>
      match input.getD i 0 with
      | 0 => .ok { output with external_digital := some false }
      | 1 => .ok { output with external_digital := some true }
      | b => .error (.notWindowContact input i b)
  | .occupancy, input, i, output =>
      match input.getD i 0 with
      | 0 => .ok { output with occupancy := some .noBody }
      | 1 => .ok { output with occupancy := some .pendingOrPir }
      | 2 => .ok { output with occupancy := some .occupiedOrHeat }
      | b => .error (.notOccupancy input i b)
  | .no_decode, _, _, output => .ok output

structure Layout where
  bin_to : Decoder
  identifier : Nat
  size : Nat
deriving DecidableEq, Repr

/-- The Rust LAYOUT table, entry for entry, in source order. -/
def LAYOUT : List Layout := [
  ⟨.temperature, 0x01, 2⟩,
  ⟨.no_decode, 0x02, 1⟩,
  ⟨.no_decode, 0x03, 3⟩,
  ⟨.no_decode, 0x04, 2⟩,
  ⟨.no_decode, 0x05, 1⟩,
  ⟨.co2, 0x06, 2⟩,
  ⟨.battery, 0x07, 2⟩,
  ⟨.no_decode, 0x08, 2⟩,
  ⟨.no_decode, 0x09, 6⟩,
  ⟨.no_decode, 0x0a, 2⟩,
  ⟨.no_decode, 0x0b, 4⟩,
  ⟨.no_decode, 0x0c, 2⟩,
  ⟨.external_digital, 0x0d, 1⟩,
  ⟨.no_decode, 0x0e, 2⟩,
  ⟨.no_decode, 0x0f, 1⟩,
  ⟨.no_decode, 0x10, 4⟩,
  ⟨.occupancy, 0x11, 1⟩,
  ⟨.no_decode, 0x12, 1⟩,
  ⟨.no_decode, 0x13, 65⟩,
  ⟨.no_decode, 0x14, 4⟩,
  ⟨.no_decode, 0x15, 2⟩,
  ⟨.no_decode, 0x16, 2⟩,
  ⟨.no_decode, 0x17, 4⟩,
  ⟨.no_decode, 0x18, 2⟩,
  ⟨.no_decode, 0x19, 2⟩,
  ⟨.no_decode, 0x1a, 1⟩,
  ⟨.no_decode, 0x1b, 4⟩,
  ⟨.no_decode, 0x1c, 2⟩,
  ⟨.no_decode, 0x3d, 4⟩]

/-- Rust fn verify_array_length. -/
def verify_array_length (input : List Nat) (i : Nat) (pattern_size : Nat) :
    Except DecodeError Unit :=
  if input.length ≤ i + pattern_size then
    .error (.truncated input i (input.getD i 0) pattern_size)
  else
    .ok ()

/-- Rust fn verify_pattern_matches. -/
def verify_pattern_matches (input : List Nat) (i : Nat) (identifier_found : Bool) :
    Except DecodeError Unit :=
  if !identifier_found then
    .error (.unrecognizedTag input i (input.getD i 0))
  else
    .ok ()

/-- The while loop of Uplink::deserialize. The for loop over LAYOUT with
its break is List.find?; after a match the source does i += size, calls
verify_pattern_matches with the updated index and found = true, then
i += 1, hence the recursive call at i + p.size + 1. -/
def deserializeLoop (input : List Nat) (output : Uplink) (i : Nat) :
    Except DecodeError Uplink :=
  if _h : i < input.length then
    match LAYOUT.find? (fun p => p.identifier == input.getD i 0) with
    | some p =>
        match verify_array_length input i p.size with
        | .error e => .error e
        | .ok _ =>
            match runDecoder p.bin_to input (i + 1) output with
            | .error e => .error e
            | .ok output2 =>
                match verify_pattern_matches input (i + p.size) true with
                | .error e => .error e
                | .ok _ => deserializeLoop input output2 (i + p.size + 1)
    | none =>
        match verify_pattern_matches input i false with
        | .error e => .error e
        | .ok _ => deserializeLoop input output (i + 1)
  else
    .ok output
termination_by input.length - i
decreasing_by all_goals simp_wf; omega

/-- Rust pub fn Uplink::deserialize. -/
def deserialize (input : List Nat) : Except DecodeError Uplink :=
  deserializeLoop input Uplink.default 0

/-- Step-indexed variant of deserializeLoop: none means the step budget ran
out. Structural in fuel, so it evaluates by kernel reduction. -/
def deserializeFuel (fuel : Nat) (input : List Nat) (output : Uplink) (i : Nat) :
    Option (Except DecodeError Uplink) :=
  match fuel with
  | 0 => none
  | fuel + 1 =>
    if i < input.length then
      match LAYOUT.find? (fun p => p.identifier == input.getD i 0) with
      | some p =>
          match verify_array_length input i p.size with
          | .error e => some (.error e)
          | .ok _ =>
              match runDecoder p.bin_to input (i + 1) output with
              | .error e => some (.error e)
              | .ok output2 =>
                  match verify_pattern_matches input (i + p.size) true with
                  | .error e => some (.error e)
                  | .ok _ => deserializeFuel fuel input output2 (i + p.size + 1)
      | none =>
          match verify_pattern_matches input i false with
          | .error e => some (.error e)
          | .ok _ => deserializeFuel fuel input output (i + 1)
    else
      some (.ok output)

/-- Bounds-checked variant of verify_array_length: the slice access
input[i] in the error message is tracked; none marks an out-of-bounds
access (a Rust panic). -/
def verify_array_length_checked (input : List Nat) (i : Nat) (pattern_size : Nat) :
    Option (Except DecodeError Unit) :=
  if input.length ≤ i + pattern_size then
    match input[i]? with
    | some b => some (.error (.truncated input i b pattern_size))
    | none => none
  else
    some (.ok ())

/-- Bounds-checked variant of verify_pattern_matches. -/
def verify_pattern_matches_checked (input : List Nat) (i : Nat) (identifier_found : Bool) :
    Option (Except DecodeError Unit) :=
  if !identifier_found then
    match input[i]? with
    | some b => some (.error (.unrecognizedTag input i b))
    | none => none
  else
    some (.ok ())

/-- Bounds-checked variant of runDecoder: every slice index the Rust
decoder bodies perform is tracked; none marks an out-of-bounds access. -/
def runDecoderChecked : Decoder → List Nat → Nat → Uplink →
    Option (Except DecodeError Uplink)
  | .temperature, input, i, output =>
      match input[i]?, input[i + 1]? with
      | some hi, some lo =>
          let temperature_x10_pos := (hi <<< 8) ||| lo
          let temperature_x10 := bin16_to_dec temperature_x10_pos
          some (.ok { output with temperature := some ((temperature_x10 : ℚ) * 0.1) })
      | _, _ => none
  | .co2, input, i, output =>
      match input[i]?, input[i + 1]? with
      | some hi, some lo => some (.ok { output with co2 := some ((hi <<< 8) ||| lo) })
      | _, _ => none
  | .battery, input, i, output =>
      match input[i]?, input[i + 1]? with
      | some hi, some lo => some (.ok { output with battery_mv := some ((hi <<< 8) ||| lo) })
      | _, _ => none
  | .external_digital, input, i, output =>
      match input[i]? with
      | some 0 => some (.ok { output with external_digital := some false })
      | some 1 => some (.ok { output with external_digital := some true })
      | some b => some (.error (.notWindowContact input i b))
      | none => none
  | .occupancy, input, i, output =>
      match input[i]? with
      | some 0 => some (.ok { output with occupancy := some .noBody })
      | some 1 => some (.ok { output with occupancy := some .pendingOrPir })
      | some 2 => some (.ok { output with occupancy := some .occupiedOrHeat })
      | some b => some (.error (.notOccupancy input i b))
      | none => none
  | .no_decode, _, _, output => some (.ok output)

/-- Bounds-checked variant of the deserialize loop: every slice index is an
optional lookup and none (an out-of-bounds access, i.e. a Rust panic)
propagates. The loop guard reads input[i] to compare against each table
identifier, exactly as the Rust for loop does. -/
def deserializeLoopChecked (input : List Nat) (output : Uplink) (i : Nat) :
    Option (Except DecodeError Uplink) :=
  if _h : i < input.length then
    match input[i]? with
    | none => none
    | some b =>
      match LAYOUT.find? (fun p => p.identifier == b) with
      | some p =>
          match verify_array_length_checked input i p.size with
          | none => none
          | some (.error e) => some (.error e)
          | some (.ok _) =>
              match runDecoderChecked p.bin_to input (i + 1) output with
              | none => none
              | some (.error e) => some (.error e)
              | some (.ok output2) =>
                  match verify_pattern_matches_checked input (i + p.size) true with
                  | none => none
                  | some (.error e) => some (.error e)
                  | some (.ok _) => deserializeLoopChecked input output2 (i + p.size + 1)
      | none =>
          match verify_pattern_matches_checked input i false with
          | none => none
          | some (.error e) => some (.error e)
          | some (.ok _) => deserializeLoopChecked input output (i + 1)
  else
    some (.ok output)
termination_by input.length - i
decreasing_by all_goals simp_wf; omega

/-- Bounds-checked variant of Uplink::deserialize: returns none exactly
when the unchecked code would index out of bounds. -/
def deserializeChecked (input : List Nat) : Option (Except DecodeError Uplink) :=
  deserializeLoopChecked input Uplink.default 0

/-- Rust fn close(x, y, resolution), with f32 idealised as ℚ. -/
def close (x y : Option ℚ) (resolution : ℚ) : Bool :=
  match x, y with
  | some a, some b => decide ((a - b) * 2 < resolution) && decide ((b - a) * 2 < resolution)
  | some _, none => false
  | none, some _ => false
  | none, none => true

/-- Rust impl PartialEq for Uplink, field for field. -/
def uplinkEq (a b : Uplink) : Bool :=
  close a.temperature b.temperature 0.1
    && (a.co2 == b.co2)
    && (a.battery_mv == b.battery_mv)
    && (a.occupancy == b.occupancy)
    && (a.external_digital == b.external_digital)

/-- Spec-side definition for the refinement claim: the standard
two's-complement reinterpretation of a 16-bit unsigned value as a signed
16-bit integer, written from the spec's words (value = raw as signed when
the high bit is clear, raw minus 65536 when it is set). -/
def specTwosComplement16 (b : Nat) : Int :=
  if b < 0x8000 then (b : Int) else (b : Int) - 0x10000

/-- The identifier set of the layout table. -/
def identifiers : List Nat := LAYOUT.map (·.identifier)

/-- Recogniser for the truncation error kind. -/
def isTruncatedError : Except DecodeError Uplink → Bool
  | .error (.truncated ..) => true
  | _ => false

/-- How many payload bytes each decoder body actually reads. -/
def decoderReads : Decoder → Nat
  | .temperature => 2
  | .co2 => 2
  | .battery => 2
  | .external_digital => 1
  | .occupancy => 1
  | .no_decode => 0

instance : DecidableEq (Except DecodeError Uplink) := fun a b =>
  match a, b with
  | .error x, .error y =>
      decidable_of_iff (x = y) (by constructor <;> (intro h; cases h; rfl))
  | .ok x, .ok y =>
      decidable_of_iff (x = y) (by constructor <;> (intro h; cases h; rfl))
  | .error _, .ok _ => .isFalse (by intro h; cases h)
  | .ok _, .error _ => .isFalse (by intro h; cases h)

/-!
Helper lemmas shared by the claim theorems below.
-/

lemma getElem?_eq_some_getD {l : List Nat} {i : Nat} (h : i < l.length) :
    l[i]? = some (l.getD i 0) := by
  rw [List.getD_eq_getElem?_getD, List.getElem?_eq_getElem h]
  rfl

/-- Enough fuel makes the step-indexed loop agree with the loop. -/
lemma deserializeFuel_eq (fuel : Nat) :
    ∀ input output i, input.length - i < fuel →
      deserializeFuel fuel input output i = some (deserializeLoop input output i) := by
  induction fuel with
  | zero => intro input output i h; omega
  | succ fuel ih =>
    intro input output i h
    rw [deserializeLoop]
    simp only [deserializeFuel]
    by_cases hi : i < input.length
    · rw [if_pos hi, dif_pos hi]
      cases hfind : LAYOUT.find? (fun p => p.identifier == input.getD i 0) with
      | none => simp [hfind, verify_pattern_matches]
      | some p =>
        simp only [hfind]
        cases hval : verify_array_length input i p.size with
        | error e => simp [hval]
        | ok u =>
          simp only [hval]
          cases hdec : runDecoder p.bin_to input (i + 1) output with
          | error e => simp [hdec]
          | ok output2 =>
            simp only [hdec, verify_pattern_matches, Bool.not_true, Bool.false_eq_true,
              if_false]
            exact ih input output2 (i + p.size + 1) (by omega)
    · rw [if_neg hi, dif_neg hi]

/-- Evaluate deserialize through the step-indexed loop. -/
lemma deserialize_eq_of_fuel (fuel : Nat) {input : List Nat} {r : Except DecodeError Uplink}
    (hf : input.length < fuel)
    (h : deserializeFuel fuel input Uplink.default 0 = some r) :
    deserialize input = r := by
  have h2 := deserializeFuel_eq fuel input Uplink.default 0 (by omega)
  rw [deserialize]
  exact Option.some.inj (h2.symm.trans h)

lemma decoderReads_le_size : ∀ p ∈ LAYOUT, decoderReads p.bin_to ≤ p.size := by decide

lemma runDecoderChecked_eq (d : Decoder) (input : List Nat) (j : Nat) (out : Uplink)
    (h : j + decoderReads d ≤ input.length) :
    runDecoderChecked d input j out = some (runDecoder d input j out) := by
  cases d with
  | temperature =>
      simp only [decoderReads] at h
      simp only [runDecoderChecked, runDecoder,
        getElem?_eq_some_getD (show j < input.length by omega),
        getElem?_eq_some_getD (show j + 1 < input.length by omega)]
  | co2 =>
      simp only [decoderReads] at h
      simp only [runDecoderChecked, runDecoder,
        getElem?_eq_some_getD (show j < input.length by omega),
        getElem?_eq_some_getD (show j + 1 < input.length by omega)]
  | battery =>
      simp only [decoderReads] at h
      simp only [runDecoderChecked, runDecoder,
        getElem?_eq_some_getD (show j < input.length by omega),
        getElem?_eq_some_getD (show j + 1 < input.length by omega)]
  | external_digital =>
      simp only [decoderReads] at h
      simp only [runDecoderChecked, runDecoder,
        getElem?_eq_some_getD (show j < input.length by omega)]
      cases hb : input.getD j 0 with
      | zero => rfl
      | succ m =>
        cases m with
        | zero => rfl
        | succ m2 => rfl
  | occupancy =>
      simp only [decoderReads] at h
      simp only [runDecoderChecked, runDecoder,
        getElem?_eq_some_getD (show j < input.length by omega)]
      cases hb : input.getD j 0 with
      | zero => rfl
      | succ m =>
        cases m with
        | zero => rfl
        | succ m2 =>
          cases m2 with
          | zero => rfl
          | succ m3 => rfl
  | no_decode => rfl

/-- The bounds-checked loop never reports an out-of-bounds access and agrees
with the unchecked loop. -/
lemma deserializeLoopChecked_eq :
    ∀ n input output i, input.length - i ≤ n →
      deserializeLoopChecked input output i = some (deserializeLoop input output i) := by
  intro n
  induction n with
  | zero =>
    intro input output i h
    have hi : ¬ i < input.length := by omega
    rw [deserializeLoopChecked, deserializeLoop, dif_neg hi, dif_neg hi]
  | succ n ih =>
    intro input output i h
    by_cases hi : i < input.length
    · rw [deserializeLoopChecked, deserializeLoop, dif_pos hi, dif_pos hi]
      simp only [getElem?_eq_some_getD hi]
      cases hfind : LAYOUT.find? (fun p => p.identifier == input.getD i 0) with
      | none =>
        simp only [hfind, verify_pattern_matches_checked, verify_pattern_matches,
          getElem?_eq_some_getD hi, Bool.not_false, if_true]
      | some p =>
        simp only [hfind]
        by_cases hlen : input.length ≤ i + p.size
        · simp only [verify_array_length_checked, verify_array_length, if_pos hlen,
            getElem?_eq_some_getD hi]
        · simp only [verify_array_length_checked, verify_array_length, if_neg hlen]
          have harity : i + 1 + decoderReads p.bin_to ≤ input.length := by
            have := decoderReads_le_size p (List.mem_of_find?_eq_some hfind)
            omega
          rw [runDecoderChecked_eq p.bin_to input (i + 1) output harity]
          cases hdec : runDecoder p.bin_to input (i + 1) output with
          | error e => simp only [hdec]
          | ok output2 =>
            simp only [hdec, verify_pattern_matches_checked, verify_pattern_matches,
              Bool.not_true, Bool.false_eq_true, if_false]
            exact ih input output2 (i + p.size + 1) (by omega)
    · rw [deserializeLoopChecked, deserializeLoop, dif_neg hi, dif_neg hi]

lemma land_high_bit (b : Nat) (hb : b < 65536) : 0x8000 &&& b = 0 ↔ b < 32768 := by
  have h2 : (0x8000 : Nat) = 2 ^ 15 := by norm_num
  have hp : (2 : Nat) ^ 15 = 32768 := by norm_num
  rw [h2, Nat.two_pow_and, Nat.testBit_to_div_mod, hp]
  rcases Nat.lt_or_ge b 32768 with hlt | hge
  · have hz : b / 32768 = 0 := by omega
    rw [hz]
    simp
    omega
  · have ho : b / 32768 = 1 := by omega
    rw [ho]
    simp
    omega

lemma bin16_to_dec_eq_spec (b : Nat) (hb : b < 65536) :
    bin16_to_dec b = specTwosComplement16 b := by
  unfold bin16_to_dec specTwosComplement16
  by_cases hlt : b < 32768
  · have hm : 0x8000 &&& b = 0 := (land_high_bit b hb).2 hlt
    rw [hm]
    simp only [beq_self_eq_true, if_true, if_pos (show b < 0x8000 by omega)]
    simp [Int.bmod]
    omega
  · have hm : ¬ (0x8000 &&& b = 0) := fun h => hlt ((land_high_bit b hb).1 h)
    rw [if_neg (by simpa using hm), if_neg (by omega)]
    simp [Int.bmod]
    omega

lemma or_bounds (hi lo : Nat) (hhi : hi < 256) (hlo : lo < 256) (hbit : 128 ≤ hi) :
    32768 ≤ ((hi <<< 8) ||| lo) ∧ ((hi <<< 8) ||| lo) < 65536 := by
  have hsl : hi <<< 8 = hi * 256 := by
    rw [Nat.shiftLeft_eq]
  have h1 : (hi <<< 8) < 2 ^ 16 := by
    rw [hsl, show (2 : Nat) ^ 16 = 65536 by norm_num]
    omega
  have h2 : lo < 2 ^ 16 := by
    rw [show (2 : Nat) ^ 16 = 65536 by norm_num]
    omega
  have hlt : ((hi <<< 8) ||| lo) < 65536 := by
    have := Nat.or_lt_two_pow h1 h2
    norm_num at this
    exact this
  have htb : ((hi <<< 8) ||| lo).testBit 15 = true := by
    rw [Nat.testBit_lor]
    have hsb : (hi <<< 8).testBit 15 = true := by
      rw [Nat.testBit_to_div_mod, hsl]
      have hd : hi * 256 / 2 ^ 15 = 1 := by
        have : (2 : Nat) ^ 15 = 32768 := by norm_num
        rw [this]
        omega
      rw [hd]
      simp
    rw [hsb]
    simp
  have hge : 32768 ≤ ((hi <<< 8) ||| lo) := by
    rw [Nat.testBit_to_div_mod] at htb
    have : (2 : Nat) ^ 15 = 32768 := by norm_num
    rw [this] at htb
    simp at htb
    omega
  exact ⟨hge, hlt⟩

lemma deserialize_temp (hi lo : Nat) :
    deserialize [0x01, hi, lo] = .ok { Uplink.default with
      temperature := some ((bin16_to_dec ((hi <<< 8) ||| lo) : ℚ) * 0.1) } := by
  apply deserialize_eq_of_fuel 4 (by simp)
  rfl


lemma isTruncatedError_runDecoder (d : Decoder) (inp : List Nat) (j : Nat) (o : Uplink) :
    isTruncatedError (runDecoder d inp j o) = false := by
  cases d with
  | temperature => rfl
  | co2 => rfl
  | battery => rfl
  | external_digital =>
    simp only [runDecoder]
    cases hb : inp.getD j 0 with
    | zero => rfl
    | succ m =>
      cases m with
      | zero => rfl
      | succ m2 => rfl
  | occupancy =>
    simp only [runDecoder]
    cases hb : inp.getD j 0 with
    | zero => rfl
    | succ m =>
      cases m with
      | zero => rfl
      | succ m2 =>
        cases m2 with
        | zero => rfl
        | succ m3 => rfl
  | no_decode => rfl

lemma find?_self_of_mem : ∀ q ∈ LAYOUT,
    LAYOUT.find? (fun r => r.identifier == q.identifier) = some q := by decide

/-- C1: bin16_to_dec agrees with the standard two's-complement
reinterpretation of a 16-bit unsigned value on every input below 2^16,
including the maximum-magnitude negative value 0x8000, which maps to
-32768; consequently a temperature payload 0x00 0x00 decodes to 0 degrees
and any payload whose high byte has the top bit set decodes to
(unsigned16 - 65536) / 10 degrees. -/
theorem claim_C1_sign_extension :
    (∀ b : Nat, b < 65536 → bin16_to_dec b = specTwosComplement16 b) ∧
    bin16_to_dec 0x8000 = -32768 ∧
    deserialize [0x01, 0x00, 0x00] = .ok { Uplink.default with temperature := some 0 } ∧
    (∀ hi lo : Nat, hi < 256 → lo < 256 → 0x80 ≤ hi →
      deserialize [0x01, hi, lo] = .ok { Uplink.default with
        temperature := some (((((hi <<< 8) ||| lo : Nat) : ℚ) - 65536) / 10) }) := by
  refine ⟨bin16_to_dec_eq_spec, by decide, ?_, ?_⟩
  · apply deserialize_eq_of_fuel 4 (by simp)
    have hval : ((bin16_to_dec ((0 <<< 8) ||| 0) : Int) : ℚ) * 0.1 = 0 := by
      rw [show bin16_to_dec ((0 <<< 8) ||| 0) = 0 from by decide]
      norm_num
    rw [← hval]
    rfl
  · intro hi lo hhi hlo hbit
    rw [deserialize_temp]
    have hb := or_bounds hi lo hhi hlo hbit
    rw [bin16_to_dec_eq_spec _ hb.2]
    unfold specTwosComplement16
    rw [if_neg (by omega)]
    congr 1
    push_cast
    ring_nf

/-- C1 witness: the sign-extension equivalence at 0x8000, and the
high-bit payload consequence at the concrete payload 0xFF 0x38. -/
theorem claim_C1_witness :
    (0x8000 < 65536 ∧ bin16_to_dec 0x8000 = specTwosComplement16 0x8000) ∧
    (0xFF < 256 ∧ 0x38 < 256 ∧ 0x80 ≤ 0xFF ∧
      deserialize [0x01, 0xFF, 0x38] = .ok { Uplink.default with
        temperature := some (((((0xFF <<< 8) ||| 0x38 : Nat) : ℚ) - 65536) / 10) }) :=
  ⟨⟨by decide, claim_C1_sign_extension.1 0x8000 (by decide)⟩,
   ⟨by decide, by decide, by decide,
    claim_C1_sign_extension.2.2.2 0xFF 0x38 (by decide) (by decide) (by decide)⟩⟩

/-- C2: when the dispatch loop has matched a tag at position i of declared
payload size s, verify_array_length fails with the truncation error exactly
when the input length is at most i + s; concretely deserialize [0x06, 0x00]
fails with that error and deserialize [0x06, 0x00, 0x00] succeeds. -/
theorem claim_C2_truncation_check :
    (∀ (input : List Nat) (i s : Nat),
       verify_array_length input i s = .error (.truncated input i (input.getD i 0) s) ↔
         input.length ≤ i + s) ∧
    deserialize [0x06, 0x00] = .error (.truncated [0x06, 0x00] 0 0x06 2) ∧
    deserialize [0x06, 0x00, 0x00] = .ok { Uplink.default with co2 := some 0 } := by
  refine ⟨?_, ?_, ?_⟩
  · intro input i s
    unfold verify_array_length
    by_cases h : input.length ≤ i + s
    · simp [h]
    · simp [h]
  · exact deserialize_eq_of_fuel 3 (by simp) (by decide)
  · exact deserialize_eq_of_fuel 4 (by simp) (by decide)

/-- C3 counterexample: the buffer [0x06, 0x00, 0x00] ends exactly at the
last payload byte of the size-2 tag 0x06 at position 0 (its length is
0 + 2 + 1), yet deserialize accepts it, refuting the claim that every tag
needs an extra trailing byte beyond its payload. -/
theorem claim_C3_counterexample :
    deserialize [0x06, 0x00, 0x00] = .ok { Uplink.default with co2 := some 0 } ∧
    ([0x06, 0x00, 0x00] : List Nat).length = 0 + 2 + 1 :=
  ⟨deserialize_eq_of_fuel 4 (by simp) (by decide), by decide⟩

/-- C3 amended: no extra trailing byte is required; a tag whose declared
payload fits exactly in the rest of the buffer is never rejected for
truncation: for every layout entry and every payload of exactly the
declared size, deserialize of the tag followed by that payload never
returns the truncation error. -/
theorem claim_C3_amended (p : Layout) (ps : List Nat) (hmem : p ∈ LAYOUT)
    (hlen : ps.length = p.size) :
    isTruncatedError (deserialize (p.identifier :: ps)) = false := by
  have hfind := find?_self_of_mem p hmem
  rw [deserialize, deserializeLoop, dif_pos (by simp)]
  simp only [List.getD_cons_zero, hfind]
  have hval : verify_array_length (p.identifier :: ps) 0 p.size = .ok () := by
    unfold verify_array_length
    rw [if_neg (by simp [hlen])]
  simp only [hval]
  cases hdec : runDecoder p.bin_to (p.identifier :: ps) (0 + 1) Uplink.default with
  | error e =>
    simp only [hdec]
    have h2 := isTruncatedError_runDecoder p.bin_to (p.identifier :: ps) (0 + 1) Uplink.default
    rw [hdec] at h2
    exact h2
  | ok out2 =>
    simp only [hdec, verify_pattern_matches, Bool.not_true, Bool.false_eq_true, if_false]
    rw [deserializeLoop, dif_neg (by simp [hlen])]
    rfl

/-- C3 amended witness: the CO2 entry with an exactly-fitting payload. -/
theorem claim_C3_amended_witness :
    (⟨.co2, 0x06, 2⟩ : Layout) ∈ LAYOUT ∧ ([0x00, 0x00] : List Nat).length = 2 ∧
    isTruncatedError (deserialize (0x06 :: [0x00, 0x00])) = false :=
  ⟨by decide, by decide,
   claim_C3_amended ⟨.co2, 0x06, 2⟩ [0x00, 0x00] (by decide) (by decide)⟩

/-- C4 counterexample: [0x05, 0x01] satisfies the length check
(2 > 0 + 1) and deserialize accepts it, but the result is the all-absent
record — occupancy is none, not PendingOrPir, because tag 0x05 is the
motion counter wired to the no-op decoder. -/
theorem claim_C4_counterexample :
    deserialize [0x05, 0x01] = .ok Uplink.default ∧
    Uplink.default.occupancy = none ∧ ([0x05, 0x01] : List Nat).length > 0 + 1 :=
  ⟨deserialize_eq_of_fuel 3 (by simp) (by decide), rfl, by decide⟩

/-- C4 amended: the occupancy tag is 0x11, not 0x05 (0x05 is motion, a
no-op decoder): deserialize [0x11, 0x01] — which already satisfies the
length check with no trailing bytes — succeeds with occupancy =
PendingOrPir and all other fields absent. -/
theorem claim_C4_amended :
    deserialize [0x11, 0x01] = .ok { Uplink.default with occupancy := some .pendingOrPir } :=
  deserialize_eq_of_fuel 3 (by simp) (by decide)

/-- C5: deserialize [0x01, 0x00, 0xDC, 0x07, 0x0E, 0x41] succeeds with
temperature 22 degrees (raw fixed-point value 220 tenths) and
battery_mv = 3649, all other fields absent — the cursor advances past each
tag byte plus its declared payload, so the second tag is parsed at the
right offset. -/
theorem claim_C5_two_tags :
    deserialize [0x01, 0x00, 0xDC, 0x07, 0x0E, 0x41] = .ok { Uplink.default with
      temperature := some 22, battery_mv := some 3649 } ∧
    bin16_to_dec ((0x00 <<< 8) ||| 0xDC) = 220 ∧ (22 : ℚ) = (220 : ℚ) * 0.1 := by
  refine ⟨?_, by decide, by norm_num⟩
  apply deserialize_eq_of_fuel 7 (by simp)
  have hval : ((bin16_to_dec ((0 <<< 8) ||| 0xDC) : Int) : ℚ) * 0.1 = 22 := by
    rw [show bin16_to_dec ((0 <<< 8) ||| 0xDC) = 220 from by decide]
    norm_num
  rw [← hval]
  rfl

/-- C6: the layout table has 29 identifiers, and any input whose first
byte is not one of them fails with the unrecognized-tag error at index 0. -/
theorem claim_C6_unknown_tag :
    identifiers.length = 29 ∧
    (∀ b rest, b ∉ identifiers →
      deserialize (b :: rest) = .error (.unrecognizedTag (b :: rest) 0 b)) := by
  refine ⟨by decide, ?_⟩
  intro b rest hb
  rw [deserialize, deserializeLoop, dif_pos (by simp)]
  simp only [List.getD_cons_zero]
  have hfind : LAYOUT.find? (fun p => p.identifier == b) = none := by
    rw [List.find?_eq_none]
    intro p hp
    simp only [beq_iff_eq]
    intro he
    exact hb (List.mem_map.mpr ⟨p, hp, he⟩)
  simp only [hfind]
  rfl

/-- C6 witness: the sole byte 0x20 is not an identifier and fails. -/
theorem claim_C6_witness :
    (0x20 : Nat) ∉ identifiers ∧
    deserialize [0x20] = .error (.unrecognizedTag [0x20] 0 0x20) :=
  ⟨by decide, claim_C6_unknown_tag.2 0x20 [] (by decide)⟩

/-- C7: record equality is approximate on temperature and exact elsewhere:
two records with both temperatures present and differing by less than half
of the 0.1 resolution unit, all other fields exactly equal, compare equal;
and a record with temperature present never equals one with it absent. -/
theorem claim_C7_equality :
    (∀ (a b : Uplink) (x y : ℚ), a.temperature = some x → b.temperature = some y →
        |x - y| < 1 / 20 → a.co2 = b.co2 → a.battery_mv = b.battery_mv →
        a.occupancy = b.occupancy → a.external_digital = b.external_digital →
        uplinkEq a b = true) ∧
    (∀ a b : Uplink, a.temperature.isSome = true → b.temperature = none →
        uplinkEq a b = false) ∧
    (∀ a b : Uplink, a.temperature = none → b.temperature.isSome = true →
        uplinkEq a b = false) := by
  refine ⟨?_, ?_, ?_⟩
  · intro a b x y hx hy habs hco2 hbat hocc hext
    have habs2 := abs_lt.mp habs
    have h1 : (x - y) * 2 < 0.1 := by
      rw [show (0.1 : ℚ) = 1 / 10 by norm_num]
      linarith [habs2.1, habs2.2]
    have h2 : (y - x) * 2 < 0.1 := by
      rw [show (0.1 : ℚ) = 1 / 10 by norm_num]
      linarith [habs2.1, habs2.2]
    simp [uplinkEq, close, hx, hy, hco2, hbat, hocc, hext, h1, h2]
  · intro a b ha hb
    obtain ⟨x, hx⟩ := Option.isSome_iff_exists.mp ha
    simp [uplinkEq, close, hx, hb]
  · intro a b ha hb
    obtain ⟨y, hy⟩ := Option.isSome_iff_exists.mp hb
    simp [uplinkEq, close, ha, hy]

/-- C7 witness: two records whose temperatures differ by 1/25 of a degree
(less than 1/20) with identical other fields compare equal; a record with
a temperature never equals the all-absent record. -/
theorem claim_C7_witness :
    ((⟨some 22, some 600, some 3649, some .noBody, some true⟩ : Uplink).temperature = some 22 ∧
     (⟨some (22 + 1/25), some 600, some 3649, some .noBody, some true⟩ : Uplink).temperature
        = some (22 + 1/25) ∧
     |(22 : ℚ) - (22 + 1/25)| < 1 / 20 ∧
     uplinkEq ⟨some 22, some 600, some 3649, some .noBody, some true⟩
       ⟨some (22 + 1/25), some 600, some 3649, some .noBody, some true⟩ = true) ∧
    ((⟨some 22, none, none, none, none⟩ : Uplink).temperature.isSome = true ∧
     (⟨none, none, none, none, none⟩ : Uplink).temperature = none ∧
     uplinkEq ⟨some 22, none, none, none, none⟩ ⟨none, none, none, none, none⟩ = false) :=
  ⟨⟨rfl, rfl, by rw [abs_lt]; constructor <;> norm_num,
    claim_C7_equality.1 _ _ 22 (22 + 1/25) rfl rfl
      (by rw [abs_lt]; constructor <;> norm_num) rfl rfl rfl rfl⟩,
   ⟨rfl, rfl, claim_C7_equality.2.1 _ _ rfl rfl⟩⟩

/-- C8: deserialize of the empty byte sequence succeeds and returns the
record with every field absent. -/
theorem claim_C8_empty :
    deserialize [] = .ok Uplink.default ∧
    Uplink.default.temperature = none ∧ Uplink.default.co2 = none ∧
    Uplink.default.battery_mv = none ∧ Uplink.default.occupancy = none ∧
    Uplink.default.external_digital = none :=
  ⟨deserialize_eq_of_fuel 1 (by simp) (by decide), rfl, rfl, rfl, rfl, rfl⟩

/-- C9: deserialize terminates on every finite input: the loop, defined by
well-founded recursion on the remaining length, is reached by the
step-indexed loop whenever the step budget exceeds the remaining length,
because every iteration either returns or advances the cursor by at least
one. -/
theorem claim_C9_terminates :
    ∀ (fuel : Nat) (input : List Nat) (output : Uplink) (i : Nat),
      input.length - i < fuel →
      deserializeFuel fuel input output i = some (deserializeLoop input output i) :=
  fun fuel input output i h => deserializeFuel_eq fuel input output i h

/-- C9 witness: four steps suffice for the three-byte CO2 input. -/
theorem claim_C9_witness :
    ([0x06, 0x00, 0x00] : List Nat).length - 0 < 4 ∧
    deserializeFuel 4 [0x06, 0x00, 0x00] Uplink.default 0 =
      some (deserializeLoop [0x06, 0x00, 0x00] Uplink.default 0) :=
  ⟨by decide, claim_C9_terminates 4 [0x06, 0x00, 0x00] Uplink.default 0 (by decide)⟩

/-- C10: deserialize never reads the buffer out of bounds: the
bounds-checked interpreter, in which every slice access is tracked and an
out-of-bounds access is a distinguished outcome, agrees with deserialize
on every input and never reports such an access. -/
theorem claim_C10_no_oob :
    ∀ input : List Nat, deserializeChecked input = some (deserialize input) := by
  intro input
  rw [deserializeChecked, deserialize]
  exact deserializeLoopChecked_eq input.length input Uplink.default 0 (by omega)

end Elsys
